import Mathlib

/-!
Shallow embedding of `backend/app/rest/api/stream.go` (the `Streamer` type:
`Activate` and `eventsCh`).

Modelling choices, each tied to a line of the source:

* Go `int32` values (`MaxActive`, `activeCount`, results of
  `atomic.AddInt32`) are `Int` together with an explicit two-complement
  wraparound `int32wrap`.
* A Go `error` is its message `String`; a nil error is `none`.
  `errors.Wrap(err, msg)` produces the message `msg ++ ": " ++ err`.
* A `[]byte` payload is `List Nat`; a nil slice inside `steamEventResp.data`
  is `none`.
* The caller-supplied `steamEventFn` is stateful; its behaviour over one run
  is the list of successive results it would return on the successive ticks
  of the producer loop (the list is finite because the run ends: the ticks
  after cancellation never invoke the function).
* The consumer `for { select { ... } }` loop of `Activate` is driven by the
  list of select branches that fire, in order (`StreamEvent`).  A separate
  timed model `activateTimed` tracks the fact that `time.After(s.TimeOut)`
  is re-evaluated on every iteration of the loop.
-/

/-- Two-complement wraparound of an integer into the int32 range,
modelling Go `int32` arithmetic such as `atomic.AddInt32`. -/
def int32wrap (x : Int) : Int := (x + 2 ^ 31) % 2 ^ 32 - 2 ^ 31

/-- Result of one invocation of the caller-supplied check function
`steamEventFn`: the Go tuple `(data []byte, upd bool, err error)`. -/
structure FnResult where
  data : List Nat
  upd : Bool
  err : Option String
deriving DecidableEq

/-- `steamEventResp` from the source: the record the producer sends on the
update channel.  `data = none` models a nil slice. -/
structure steamEventResp where
  data : Option (List Nat)
  err : Option String
deriving DecidableEq

/-- `Streamer` from the source.  `TimeOut` and `Refresh` are durations in
abstract time units; `MaxActive` and the shared counter `activeCount` are
Go int32 values. -/
structure Streamer where
  TimeOut : Nat
  Refresh : Nat
  MaxActive : Int
  activeCount : Int
deriving DecidableEq

/-- Message of `errors.Wrap(err, "can't get stream data")` in `eventsCh`. -/
def wrapGetStreamData (e : String) : String := "can\x27t get stream data: " ++ e

/-- Message of `errors.Wrap(e, "send to stream failed")` in `Activate`. -/
def wrapSendToStream (e : String) : String := "send to stream failed: " ++ e

/-- One run of the producer goroutine body of `Streamer.eventsCh`, over the
list of successive check-function results delivered at its ticks.  Returns
the messages sent on the channel, in order, and the number of times the
check function was invoked.  Mirrors the source loop: on a tick whose
invocation errors, send `{data: nil, err: wrapped}` and return; on
`upd = true` send the payload; otherwise send nothing and keep ticking.
(The `ctx.Done()` branch of the producer select ends the list instead of
producing further results.) -/
def eventsChRun : List FnResult → List steamEventResp × Nat
  | [] => ([], 0)
  | r :: rest =>
    match r.err with
    | some e => ([{ data := none, err := some (wrapGetStreamData e) }], 1)
    | none =>
      let p := eventsChRun rest
      ((if r.upd then { data := some r.data, err := none } :: p.1 else p.1), p.2 + 1)

/-- The messages `eventsCh` sends on the update channel for a run. -/
def eventsCh (rs : List FnResult) : List steamEventResp := (eventsChRun rs).1

/-- How many times the producer invoked the check function during a run. -/
def eventsChCalls (rs : List FnResult) : Nat := (eventsChRun rs).2

/-- One firing of a branch of the `select` in the `Activate` consumer loop:
`ctx.Done()`, the `time.After` timer, a message received from `updCh`, or
`updCh` found closed (`ok = false`). -/
inductive StreamEvent where
  | ctxDone
  | timeout
  | msg (resp : steamEventResp)
  | closed
deriving DecidableEq

/-- Outcome of the consumer loop: `result = none` means the loop is still
blocked in its select (no branch of the supplied schedule ended it);
`result = some r` means the function returned with Go error `r`
(`some none` is a nil-error return).  `writes` are the payloads
successfully written to the sink, in order; `flushes` counts the
`Flush()` calls. -/
structure LoopOut where
  result : Option (Option String)
  writes : List (List Nat)
  flushes : Nat
deriving DecidableEq

/-- The `for { select { ... } }` consumer loop of `Activate`, driven by the
ordered list of select branches that fire.  `sinkErr i` is the error of the
`w.Write` call number `i` (counting from `widx`), `none` when the write
succeeds; `flushable` tells whether `w` implements `http.Flusher`. -/
def activateLoop (flushable : Bool) (sinkErr : Nat → Option String) (widx : Nat) :
    List StreamEvent → LoopOut
  | [] => { result := none, writes := [], flushes := 0 }
  | StreamEvent.ctxDone :: _ => { result := some none, writes := [], flushes := 0 }
  | StreamEvent.timeout :: _ => { result := some none, writes := [], flushes := 0 }
  | StreamEvent.closed :: _ => { result := some none, writes := [], flushes := 0 }
  | StreamEvent.msg resp :: rest =>
    match resp.err with
    | some e => { result := some (some e), writes := [], flushes := 0 }
    | none =>
      match sinkErr widx with
      | some we =>
        { result := some (some (wrapSendToStream we)), writes := [], flushes := 0 }
      | none =>
        let out := activateLoop flushable sinkErr (widx + 1) rest
        { result := out.result,
          writes := resp.data.getD [] :: out.writes,
          flushes := (if flushable then 1 else 0) + out.flushes }

/-- Outcome of one `Activate` call: its return value (as in `LoopOut`), the
shared counter after the call (the deferred decrement included when the
call returned), and the sink effects. -/
structure ActivateOut where
  result : Option (Option String)
  activeCount : Int
  writes : List (List Nat)
  flushes : Nat
deriving DecidableEq

/-- `Streamer.Activate`: increment the counter (atomic int32 add), schedule
the deferred decrement, reject with `too many streams` when the
post-increment count exceeds `MaxActive`, otherwise run the consumer loop.
The deferred `atomic.AddInt32(&s.activeCount, -1)` runs exactly when the
function returns, hence only when `result.isSome`. -/
def Streamer.Activate (s : Streamer) (flushable : Bool) (sinkErr : Nat → Option String)
    (events : List StreamEvent) : ActivateOut :=
  let count := int32wrap (s.activeCount + 1)
  if count > s.MaxActive then
    { result := some (some "too many streams"),
      activeCount := int32wrap (count + -1), writes := [], flushes := 0 }
  else
    let out := activateLoop flushable sinkErr 0 events
    { result := out.result,
      activeCount := if out.result.isSome then int32wrap (count + -1) else count,
      writes := out.writes, flushes := out.flushes }

/-- Admission outcomes of `n` `Activate` calls that all perform their
increment before any deferred decrement runs (the concurrent-start
scenario): call number `i` observes post-increment value `int32wrap (c + i)`
and is rejected when that value exceeds `m`.  Returns the number of
rejected calls. -/
def countRejections (m : Int) (c : Int) : Nat → Nat
  | 0 => 0
  | n + 1 =>
    let c1 := int32wrap (c + 1)
    (if c1 > m then 1 else 0) + countRejections m c1 n

/-- Outcome of the timed consumer model: the Go error returned, the time at
which `Activate` returned, and the times/payloads of the sink writes. -/
structure TimedOut where
  result : Option String
  endTime : Nat
  writeTimes : List Nat
  writes : List (List Nat)
deriving DecidableEq

/-- Timed model of the `Activate` consumer loop, for the timeout semantics.
In the source, `time.After(s.TimeOut)` is re-evaluated on every iteration
of the `for { select }` loop, so each iteration that starts at time `start`
has deadline `start + s.TimeOut`, re-armed after every received message.
`arrivals` lists the channel messages with their arrival times, ascending;
a message wins the select exactly when it arrives strictly before the
current deadline, and processing it starts the next iteration at its
arrival time.  (Cancellation and sink failures are orthogonal to the
timeout semantics and left out of this model.) -/
def activateTimed (s : Streamer) (start : Nat) :
    List (Nat × steamEventResp) → TimedOut
  | [] =>
    { result := none, endTime := start + s.TimeOut, writeTimes := [], writes := [] }
  | (t, m) :: rest =>
    if t < start + s.TimeOut then
      match m.err with
      | some e => { result := some e, endTime := t, writeTimes := [], writes := [] }
      | none =>
        let out := activateTimed s t rest
        { result := out.result, endTime := out.endTime,
          writeTimes := t :: out.writeTimes,
          writes := m.data.getD [] :: out.writes }
    else
      { result := none, endTime := start + s.TimeOut, writeTimes := [], writes := [] }

/-- Start time of the last iteration of the timed consumer loop: the arrival
time of the last message, or the stream start when no message arrived. -/
def lastIterStart (start : Nat) : List (Nat × steamEventResp) → Nat
  | [] => start
  | (t, _) :: rest => lastIterStart t rest

/-! ### Basic lemmas about int32 arithmetic and the producer/consumer steps -/

lemma int32wrap_eq_self (x : Int) (h1 : -2 ^ 31 ≤ x) (h2 : x < 2 ^ 31) :
    int32wrap x = x := by
  unfold int32wrap
  omega

lemma int32wrap_add_left (x y : Int) :
    int32wrap (int32wrap x + y) = int32wrap (x + y) := by
  unfold int32wrap
  omega

lemma eventsCh_nil : eventsCh [] = [] := rfl

lemma eventsCh_cons_err (d : List Nat) (u : Bool) (e : String) (rest : List FnResult) :
    eventsCh (⟨d, u, some e⟩ :: rest)
      = [{ data := none, err := some (wrapGetStreamData e) }] := rfl

lemma eventsCh_cons_ok (d : List Nat) (u : Bool) (rest : List FnResult) :
    eventsCh (⟨d, u, none⟩ :: rest)
      = if u then { data := some d, err := none } :: eventsCh rest else eventsCh rest := rfl

lemma eventsChCalls_nil : eventsChCalls [] = 0 := rfl

lemma eventsChCalls_cons_err (d : List Nat) (u : Bool) (e : String) (rest : List FnResult) :
    eventsChCalls (⟨d, u, some e⟩ :: rest) = 1 := rfl

lemma eventsChCalls_cons_ok (d : List Nat) (u : Bool) (rest : List FnResult) :
    eventsChCalls (⟨d, u, none⟩ :: rest) = eventsChCalls rest + 1 := rfl

lemma activateLoop_nil (fl : Bool) (se : Nat → Option String) (widx : Nat) :
    activateLoop fl se widx [] = { result := none, writes := [], flushes := 0 } := rfl

lemma activateLoop_ctxDone (fl : Bool) (se : Nat → Option String) (widx : Nat)
    (rest : List StreamEvent) :
    activateLoop fl se widx (StreamEvent.ctxDone :: rest)
      = { result := some none, writes := [], flushes := 0 } := rfl

lemma activateLoop_timeout (fl : Bool) (se : Nat → Option String) (widx : Nat)
    (rest : List StreamEvent) :
    activateLoop fl se widx (StreamEvent.timeout :: rest)
      = { result := some none, writes := [], flushes := 0 } := rfl

lemma activateLoop_closed (fl : Bool) (se : Nat → Option String) (widx : Nat)
    (rest : List StreamEvent) :
    activateLoop fl se widx (StreamEvent.closed :: rest)
      = { result := some none, writes := [], flushes := 0 } := rfl

lemma activateLoop_msg_err (fl : Bool) (se : Nat → Option String) (widx : Nat)
    (d : Option (List Nat)) (e : String) (rest : List StreamEvent) :
    activateLoop fl se widx (StreamEvent.msg ⟨d, some e⟩ :: rest)
      = { result := some (some e), writes := [], flushes := 0 } := rfl

lemma activateLoop_msg_write_err (fl : Bool) (se : Nat → Option String) (widx : Nat)
    (d : Option (List Nat)) (we : String) (rest : List StreamEvent)
    (hw : se widx = some we) :
    activateLoop fl se widx (StreamEvent.msg ⟨d, none⟩ :: rest)
      = { result := some (some (wrapSendToStream we)), writes := [], flushes := 0 } := by
  unfold activateLoop
  rw [hw]

lemma activateLoop_msg_write_ok (fl : Bool) (se : Nat → Option String) (widx : Nat)
    (d : Option (List Nat)) (rest : List StreamEvent) (hw : se widx = none) :
    activateLoop fl se widx (StreamEvent.msg ⟨d, none⟩ :: rest)
      = { result := (activateLoop fl se (widx + 1) rest).result,
          writes := d.getD [] :: (activateLoop fl se (widx + 1) rest).writes,
          flushes := (if fl then 1 else 0) + (activateLoop fl se (widx + 1) rest).flushes } := by
  conv_lhs => unfold activateLoop
  rw [hw]

/-! ### Whole-run characterizations of a stream -/

lemma activateLoop_eventsCh_ok (fl : Bool) (rs : List FnResult) (term : StreamEvent)
    (widx : Nat) (herr : ∀ r ∈ rs, r.err = none)
    (hterm : term = StreamEvent.ctxDone ∨ term = StreamEvent.timeout ∨
      term = StreamEvent.closed) :
    activateLoop fl (fun _ => none) widx ((eventsCh rs).map StreamEvent.msg ++ [term])
      = { result := some none,
          writes := (rs.filter (fun r => r.upd)).map FnResult.data,
          flushes := if fl then (rs.filter (fun r => r.upd)).length else 0 } := by
  induction rs generalizing widx with
  | nil =>
    rcases hterm with h | h | h <;> subst h <;>
      simp [eventsCh_nil, activateLoop_ctxDone, activateLoop_timeout, activateLoop_closed]
  | cons r rest ih =>
    obtain ⟨d, u, e⟩ := r
    have he : e = none := herr ⟨d, u, e⟩ (by simp)
    subst he
    have hrest : ∀ r ∈ rest, r.err = none := fun r hr => herr r (by simp [hr])
    rw [eventsCh_cons_ok]
    cases u with
    | false => simpa using ih widx hrest
    | true =>
      simp only [if_pos]
      rw [List.map_cons, List.cons_append,
        activateLoop_msg_write_ok fl (fun _ => none) widx (some d) _ rfl, ih (widx + 1) hrest]
      cases fl <;> simp [List.filter, Nat.add_comm]

lemma activateLoop_eventsCh_err (fl : Bool) (pre post : List FnResult) (d : List Nat)
    (u : Bool) (e : String) (term : StreamEvent) (widx : Nat)
    (hpre : ∀ r ∈ pre, r.err = none) :
    activateLoop fl (fun _ => none) widx
        ((eventsCh (pre ++ ⟨d, u, some e⟩ :: post)).map StreamEvent.msg ++ [term])
      = { result := some (some (wrapGetStreamData e)),
          writes := (pre.filter (fun r => r.upd)).map FnResult.data,
          flushes := if fl then (pre.filter (fun r => r.upd)).length else 0 } := by
  induction pre generalizing widx with
  | nil =>
    rw [List.nil_append, eventsCh_cons_err, List.map_cons, List.cons_append,
      activateLoop_msg_err]
    simp
  | cons r rest ih =>
    obtain ⟨d', u', e'⟩ := r
    have he : e' = none := hpre ⟨d', u', e'⟩ (by simp)
    subst he
    have hrest : ∀ r ∈ rest, r.err = none := fun r hr => hpre r (by simp [hr])
    rw [List.cons_append, eventsCh_cons_ok]
    cases u' with
    | false => simpa using ih widx hrest
    | true =>
      simp only [if_pos]
      rw [List.map_cons, List.cons_append,
        activateLoop_msg_write_ok fl (fun _ => none) widx (some d') _ rfl, ih (widx + 1) hrest]
      cases fl <;> simp [List.filter, Nat.add_comm]

lemma eventsCh_err_decomp (rs : List FnResult) :
    (∀ r ∈ rs, r.err = none) ∨
      ∃ pre d u e post, rs = pre ++ ⟨d, u, some e⟩ :: post ∧ ∀ r ∈ pre, r.err = none := by
  induction rs with
  | nil => exact Or.inl (by simp)
  | cons r rest ih =>
    obtain ⟨d, u, e⟩ := r
    cases e with
    | some e => exact Or.inr ⟨[], d, u, e, rest, by simp⟩
    | none =>
      rcases ih with h | ⟨pre, d', u', e', post, hsplit, hpre⟩
      · refine Or.inl ?_
        intro r hr
        rcases List.mem_cons.mp hr with h1 | h1
        · subst h1; rfl
        · exact h r h1
      · refine Or.inr ⟨⟨d, u, none⟩ :: pre, d', u', e', post, by simp [hsplit], ?_⟩
        intro r hr
        rcases List.mem_cons.mp hr with h1 | h1
        · subst h1; rfl
        · exact hpre r h1

lemma countRejections_at_capacity (n : Nat) (m c : Int) (hm : m ≤ c) (hc : 0 ≤ c)
    (hbound : c + n ≤ 2 ^ 31 - 1) :
    countRejections m c n = n := by
  induction n generalizing c with
  | zero => rfl
  | succ n ih =>
    have hwrap : int32wrap (c + 1) = c + 1 :=
      int32wrap_eq_self _ (by omega) (by omega)
    simp only [countRejections, hwrap]
    rw [if_pos (by omega), ih (c + 1) (by omega) (by omega) (by omega)]
    omega

lemma countRejections_below_capacity (d k : Nat) (m c : Int) (hc : 0 ≤ c)
    (hcd : c + d = m) (hbound : m + k ≤ 2 ^ 31 - 1) :
    countRejections m c (d + k) = k := by
  induction d generalizing c with
  | zero =>
    have hcm : c = m := by omega
    subst hcm
    simpa using countRejections_at_capacity k c c le_rfl hc (by omega)
  | succ d ih =>
    have hwrap : int32wrap (c + 1) = c + 1 :=
      int32wrap_eq_self _ (by omega) (by omega)
    have hsucc : d + 1 + k = (d + k) + 1 := by omega
    rw [hsucc]
    simp only [countRejections, hwrap]
    rw [if_neg (by omega), ih (c + 1) (by omega) (by omega)]
    omega

lemma takeWhile_err_isNone_of_ok (rs : List FnResult) (h : ∀ r ∈ rs, r.err = none) :
    rs.takeWhile (fun r => r.err.isNone) = rs := by
  induction rs with
  | nil => rfl
  | cons r rest ih =>
    have hr := h r (by simp)
    rw [List.takeWhile_cons, if_pos (by simp [hr]),
      ih (fun r hr => h r (by simp [hr]))]

lemma takeWhile_err_isNone_append_err (pre post : List FnResult) (d : List Nat)
    (u : Bool) (e : String) (hpre : ∀ r ∈ pre, r.err = none) :
    (pre ++ ⟨d, u, some e⟩ :: post).takeWhile (fun r => r.err.isNone) = pre := by
  induction pre with
  | nil => simp [List.takeWhile_cons]
  | cons r rest ih =>
    have hr := hpre r (by simp)
    rw [List.cons_append, List.takeWhile_cons, if_pos (by simp [hr]),
      ih (fun r hr => hpre r (by simp [hr]))]

lemma eventsCh_no_upd (rs : List FnResult) (h : ∀ r ∈ rs, r.upd = false ∧ r.err = none) :
    eventsCh rs = [] := by
  induction rs with
  | nil => rfl
  | cons r rest ih =>
    obtain ⟨d, u, e⟩ := r
    obtain ⟨hu, he⟩ := h ⟨d, u, e⟩ (by simp)
    simp only at hu he
    subst hu
    subst he
    rw [eventsCh_cons_ok, if_neg (by simp)]
    exact ih (fun r hr => h r (by simp [hr]))

lemma eventsChRun_append_err (pre post : List FnResult) (d : List Nat) (u : Bool)
    (e : String) (hpre : ∀ r ∈ pre, r.err = none) :
    eventsChRun (pre ++ ⟨d, u, some e⟩ :: post)
      = (eventsCh pre ++ [{ data := none, err := some (wrapGetStreamData e) }],
          pre.length + 1) := by
  induction pre with
  | nil => simp [eventsChRun, eventsCh]
  | cons r rest ih =>
    obtain ⟨d', u', e'⟩ := r
    have he : e' = none := hpre ⟨d', u', e'⟩ (by simp)
    subst he
    have hrest : ∀ r ∈ rest, r.err = none := fun r hr => hpre r (by simp [hr])
    rw [List.cons_append]
    simp only [eventsChRun, ih hrest]
    rw [eventsCh_cons_ok]
    cases u' <;> simp [Nat.add_comm]

/-! ### The claims -/

/-- C1: every `Activate` call increments the active-stream counter
(atomic int32 add) and is rejected with the `too many streams` error,
without entering the streaming loop (so the sink is never written), exactly
when the post-increment value exceeds `MaxActive`; with `MaxActive = 0` and
the counter invariant `0 ≤ activeCount` (within int32 range) every call is
rejected; and `N + k` calls that all enter before any leaves, against
`MaxActive = N`, are rejected exactly `k` times (counts within int32
range). -/
theorem activate_admission_control :
    (∀ (s : Streamer) (fl : Bool) (se : Nat → Option String) (evs : List StreamEvent),
        int32wrap (s.activeCount + 1) > s.MaxActive →
          (s.Activate fl se evs).result = some (some "too many streams")
            ∧ (s.Activate fl se evs).writes = [])
      ∧ (∀ (s : Streamer) (fl : Bool) (se : Nat → Option String) (evs : List StreamEvent),
          s.MaxActive = 0 → 0 ≤ s.activeCount → s.activeCount ≤ 2 ^ 31 - 2 →
            (s.Activate fl se evs).result = some (some "too many streams"))
      ∧ (∀ N k : Nat, N + k ≤ 2 ^ 31 - 1 →
          countRejections (N : Int) 0 (N + k) = k) := by
  refine ⟨?_, ?_, ?_⟩
  · intro s fl se evs h
    simp only [Streamer.Activate]
    rw [if_pos h]
    exact ⟨rfl, rfl⟩
  · intro s fl se evs hmax h0 h31
    have hw : int32wrap (s.activeCount + 1) = s.activeCount + 1 :=
      int32wrap_eq_self _ (by omega) (by omega)
    have h : int32wrap (s.activeCount + 1) > s.MaxActive := by rw [hw]; omega
    simp only [Streamer.Activate]
    rw [if_pos h]
  · intro N k h
    exact countRejections_below_capacity N k (N : Int) 0 le_rfl (by omega) (by omega)

theorem activate_admission_control_witness :
    ((Streamer.Activate ⟨300, 1, 0, 0⟩ true (fun _ => none) []).result
        = some (some "too many streams"))
      ∧ countRejections 2 0 (2 + 1) = 1 :=
  ⟨activate_admission_control.2.1 ⟨300, 1, 0, 0⟩ true (fun _ => none) [] rfl
      (by decide) (by decide),
    activate_admission_control.2.2 2 1 (by decide)⟩

/-- C2: the deferred `atomic.AddInt32(&s.activeCount, -1)` runs on every
return path of `Activate` — normal completion, producer error, sink-write
error, cancellation, timeout, and the rejection path — so every call that
returned leaves the counter at its pre-call value. -/
theorem activate_counter_net_zero (s : Streamer) (fl : Bool) (se : Nat → Option String)
    (evs : List StreamEvent) (hlo : -2 ^ 31 ≤ s.activeCount)
    (hhi : s.activeCount < 2 ^ 31)
    (hret : ((s.Activate fl se evs).result).isSome) :
    (s.Activate fl se evs).activeCount = s.activeCount := by
  have key : int32wrap (int32wrap (s.activeCount + 1) + -1) = s.activeCount := by
    rw [int32wrap_add_left]
    have h2 : s.activeCount + 1 + -1 = s.activeCount := by ring
    rw [h2]
    exact int32wrap_eq_self _ hlo hhi
  simp only [Streamer.Activate] at hret ⊢
  by_cases h : int32wrap (s.activeCount + 1) > s.MaxActive
  · rw [if_pos h]
    exact key
  · rw [if_neg h] at hret ⊢
    simp only [] at hret
    simp only [hret, if_pos]
    exact key

theorem activate_counter_net_zero_witness :
    (Streamer.Activate ⟨300, 1, 5, 3⟩ true (fun _ => none)
        [StreamEvent.timeout]).activeCount = 3 :=
  activate_counter_net_zero ⟨300, 1, 5, 3⟩ true (fun _ => none) [StreamEvent.timeout]
    (by decide) (by decide) (by decide)

/-- C9: when the post-increment count exceeds `MaxActive`, `Activate`
returns the `too many streams` error with the sink untouched: no write and
no flush happened, whatever events the consumer loop would have seen. -/
theorem rejection_leaves_sink_untouched (s : Streamer) (fl : Bool)
    (se : Nat → Option String) (evs : List StreamEvent)
    (h : int32wrap (s.activeCount + 1) > s.MaxActive) :
    s.Activate fl se evs
      = { result := some (some "too many streams"),
          activeCount := int32wrap (int32wrap (s.activeCount + 1) + -1),
          writes := [], flushes := 0 } := by
  simp only [Streamer.Activate]
  rw [if_pos h]

theorem rejection_leaves_sink_untouched_witness :
    Streamer.Activate ⟨300, 1, 2, 2⟩ true (fun _ => none)
        [StreamEvent.msg { data := some [1], err := none }]
      = { result := some (some "too many streams"), activeCount := 2,
          writes := [], flushes := 0 } := by
  have := rejection_leaves_sink_untouched ⟨300, 1, 2, 2⟩ true (fun _ => none)
    [StreamEvent.msg { data := some [1], err := none }] (by decide)
  simpa using this

/-- C3 counterexample: `time.After(s.TimeOut)` is re-evaluated on each
iteration of the consumer loop, so traffic re-arms the timer.  With
`TimeOut = 10` and messages at times 5, 12 and 19, the stream is still open
at time 29 and writes records at times 12 and 19 — at or after the would-be
absolute boundary `start + TimeOut = 10`, refuting both that the stream
terminates at the absolute timeout and that all records land strictly
before it. -/
theorem session_timeout_not_absolute :
    activateTimed { TimeOut := 10, Refresh := 1, MaxActive := 100, activeCount := 0 } 0
        [(5, { data := some [1], err := none }), (12, { data := some [2], err := none }),
          (19, { data := some [3], err := none })]
      = { result := none, endTime := 29, writeTimes := [5, 12, 19],
          writes := [[1], [2], [3]] }
      ∧ ¬ (29 ≤ 0 + 10)
      ∧ ¬ (12 < 0 + 10) := by
  decide

/-- C3 (amended): the session timeout is an inactivity timeout, re-armed at
every consumer-loop iteration (`time.After` is re-evaluated inside the
loop).  As long as each message arrives strictly within `TimeOut` of the
previous iteration start, the stream stays open and delivers every record;
it then terminates without error exactly `TimeOut` after the start of its
last iteration — so a stream with steady traffic can stay open arbitrarily
longer than `TimeOut`. -/
theorem session_timeout_inactivity (s : Streamer) (start : Nat)
    (arrivals : List (Nat × steamEventResp))
    (herr : ∀ a ∈ arrivals, a.2.err = none)
    (hchain : List.Chain (fun x y => y < x + s.TimeOut) start (arrivals.map Prod.fst)) :
    activateTimed s start arrivals
      = { result := none,
          endTime := lastIterStart start arrivals + s.TimeOut,
          writeTimes := arrivals.map Prod.fst,
          writes := arrivals.map (fun a => a.2.data.getD []) } := by
  induction arrivals generalizing start with
  | nil => simp [activateTimed, lastIterStart]
  | cons a rest ih =>
    obtain ⟨t, m⟩ := a
    have hm : m.err = none := herr (t, m) (by simp)
    rw [List.map_cons] at hchain
    rcases List.chain_cons.mp hchain with ⟨ht, hch⟩
    have hrest : ∀ a ∈ rest, a.2.err = none := fun a ha => herr a (by simp [ha])
    obtain ⟨md, me⟩ := m
    simp only at hm
    subst me
    simp [activateTimed, ht, ih t hrest hch, lastIterStart]

theorem session_timeout_inactivity_witness :
    activateTimed { TimeOut := 10, Refresh := 1, MaxActive := 100, activeCount := 0 } 0
        [(4, { data := some [7], err := none }), (9, { data := some [8], err := none })]
      = { result := none, endTime := 19, writeTimes := [4, 9], writes := [[7], [8]] } := by
  have := session_timeout_inactivity
    { TimeOut := 10, Refresh := 1, MaxActive := 100, activeCount := 0 } 0
    [(4, { data := some [7], err := none }), (9, { data := some [8], err := none })]
    (by decide)
    (List.Chain.cons (by decide) (List.Chain.cons (by decide) List.Chain.nil))
  simpa [lastIterStart] using this

/-- C4 counterexample: a check-function error with message `boom` reaches
the caller of `Activate` as `can't get stream data: boom` — wrapped by the
producer, not propagated verbatim. -/
theorem producer_error_not_verbatim :
    ((Streamer.Activate ⟨300, 1, 10, 0⟩ true (fun _ => none)
        ((eventsCh [⟨[], false, some "boom"⟩]).map StreamEvent.msg
          ++ [StreamEvent.closed])).result
      = some (some (wrapGetStreamData "boom")))
    ∧ wrapGetStreamData "boom" ≠ "boom" := by
  decide

/-- C4 (amended): when the check function first errors at call number
`pre.length + 1` (all earlier results being error-free), the producer sends
the error wrapped with the `can't get stream data` context and immediately
stops polling — the check function is invoked exactly `pre.length + 1`
times regardless of any later results — and `Activate` returns that
wrapped error as its result. -/
theorem producer_error_stops_and_wraps
    (pre post : List FnResult) (d : List Nat) (u : Bool) (e : String)
    (s : Streamer) (fl : Bool)
    (hpre : ∀ r ∈ pre, r.err = none)
    (hadm : ¬ int32wrap (s.activeCount + 1) > s.MaxActive) :
    eventsChCalls (pre ++ ⟨d, u, some e⟩ :: post) = pre.length + 1
      ∧ eventsCh (pre ++ ⟨d, u, some e⟩ :: post)
          = eventsCh pre ++ [{ data := none, err := some (wrapGetStreamData e) }]
      ∧ (s.Activate fl (fun _ => none)
            ((eventsCh (pre ++ ⟨d, u, some e⟩ :: post)).map StreamEvent.msg
              ++ [StreamEvent.closed])).result
          = some (some (wrapGetStreamData e)) := by
  refine ⟨?_, ?_, ?_⟩
  · show (eventsChRun (pre ++ ⟨d, u, some e⟩ :: post)).2 = pre.length + 1
    rw [eventsChRun_append_err pre post d u e hpre]
  · show (eventsChRun (pre ++ ⟨d, u, some e⟩ :: post)).1 = _
    rw [eventsChRun_append_err pre post d u e hpre]
  · have hloop := activateLoop_eventsCh_err fl pre post d u e StreamEvent.closed 0 hpre
    simp only [Streamer.Activate]
    rw [if_neg hadm]
    simp only [hloop]

theorem producer_error_stops_and_wraps_witness :
    eventsChCalls ([⟨[1], true, none⟩] ++ ⟨[], false, some "oops"⟩ :: [⟨[2], true, none⟩])
        = 2
      ∧ eventsCh ([⟨[1], true, none⟩] ++ ⟨[], false, some "oops"⟩ :: [⟨[2], true, none⟩])
          = eventsCh [⟨[1], true, none⟩]
            ++ [{ data := none, err := some (wrapGetStreamData "oops") }]
      ∧ (Streamer.Activate ⟨300, 1, 10, 0⟩ true (fun _ => none)
            ((eventsCh ([⟨[1], true, none⟩]
                ++ ⟨[], false, some "oops"⟩ :: [⟨[2], true, none⟩])).map StreamEvent.msg
              ++ [StreamEvent.closed])).result
          = some (some (wrapGetStreamData "oops")) :=
  producer_error_stops_and_wraps [⟨[1], true, none⟩] [⟨[2], true, none⟩] [] false "oops"
    ⟨300, 1, 10, 0⟩ true (by decide) (by decide)

/-- C5: the three graceful terminations — client cancellation
(`ctx.Done()`), session timeout, and the producer channel closing with no
pending error — all make `Activate` return a nil error. -/
theorem graceful_termination_returns_nil (s : Streamer) (fl : Bool) (rs : List FnResult)
    (term : StreamEvent)
    (hadm : ¬ int32wrap (s.activeCount + 1) > s.MaxActive)
    (herr : ∀ r ∈ rs, r.err = none)
    (hterm : term = StreamEvent.ctxDone ∨ term = StreamEvent.timeout ∨
      term = StreamEvent.closed) :
    (s.Activate fl (fun _ => none)
        ((eventsCh rs).map StreamEvent.msg ++ [term])).result = some none := by
  have hloop := activateLoop_eventsCh_ok fl rs term 0 herr hterm
  simp only [Streamer.Activate]
  rw [if_neg hadm]
  simp only [hloop]

theorem graceful_termination_returns_nil_witness :
    ((Streamer.Activate ⟨300, 1, 10, 0⟩ true (fun _ => none)
        ((eventsCh [⟨[5], true, none⟩]).map StreamEvent.msg
          ++ [StreamEvent.ctxDone])).result = some none)
      ∧ ((Streamer.Activate ⟨300, 1, 10, 0⟩ true (fun _ => none)
          ((eventsCh []).map StreamEvent.msg ++ [StreamEvent.timeout])).result = some none)
      ∧ ((Streamer.Activate ⟨300, 1, 10, 0⟩ true (fun _ => none)
          ((eventsCh [⟨[5], true, none⟩]).map StreamEvent.msg
            ++ [StreamEvent.closed])).result = some none) :=
  ⟨graceful_termination_returns_nil ⟨300, 1, 10, 0⟩ true [⟨[5], true, none⟩]
      StreamEvent.ctxDone (by decide) (by decide) (Or.inl rfl),
    graceful_termination_returns_nil ⟨300, 1, 10, 0⟩ true [] StreamEvent.timeout
      (by decide) (by decide) (Or.inr (Or.inl rfl)),
    graceful_termination_returns_nil ⟨300, 1, 10, 0⟩ true [⟨[5], true, none⟩]
      StreamEvent.closed (by decide) (by decide) (Or.inr (Or.inr rfl))⟩

/-- C6: over a run, the records written to the sink are exactly the
payloads of the check results that reported `upd = true` among the results
the producer consumed (those up to the first error), in production order —
no reordering, duplication or gap. -/
theorem sink_writes_in_production_order (s : Streamer) (fl : Bool) (rs : List FnResult)
    (term : StreamEvent)
    (hadm : ¬ int32wrap (s.activeCount + 1) > s.MaxActive)
    (hterm : term = StreamEvent.ctxDone ∨ term = StreamEvent.timeout ∨
      term = StreamEvent.closed) :
    (s.Activate fl (fun _ => none)
        ((eventsCh rs).map StreamEvent.msg ++ [term])).writes
      = ((rs.takeWhile (fun r => r.err.isNone)).filter (fun r => r.upd)).map
          FnResult.data := by
  rcases eventsCh_err_decomp rs with hok | ⟨pre, d, u, e, post, hsplit, hpre⟩
  · have hloop := activateLoop_eventsCh_ok fl rs term 0 hok hterm
    rw [takeWhile_err_isNone_of_ok rs hok]
    simp only [Streamer.Activate]
    rw [if_neg hadm]
    simp only [hloop]
  · subst hsplit
    have hloop := activateLoop_eventsCh_err fl pre post d u e term 0 hpre
    rw [takeWhile_err_isNone_append_err pre post d u e hpre]
    simp only [Streamer.Activate]
    rw [if_neg hadm]
    simp only [hloop]

theorem sink_writes_in_production_order_witness :
    (Streamer.Activate ⟨300, 1, 10, 0⟩ true (fun _ => none)
        ((eventsCh [⟨[1], true, none⟩, ⟨[2], false, none⟩, ⟨[3], true, none⟩,
            ⟨[4], true, some "late"⟩, ⟨[9], true, none⟩]).map StreamEvent.msg
          ++ [StreamEvent.timeout])).writes = [[1], [3]] := by
  have := sink_writes_in_production_order ⟨300, 1, 10, 0⟩ true
    [⟨[1], true, none⟩, ⟨[2], false, none⟩, ⟨[3], true, none⟩,
      ⟨[4], true, some "late"⟩, ⟨[9], true, none⟩]
    StreamEvent.timeout (by decide) (Or.inr (Or.inl rfl))
  simpa using this

/-- C7: on a received value the consumer writes the payload to the sink and
then flushes exactly when the sink implements `http.Flusher` (one flush per
successful write); a failed write makes the loop — and `Activate` — return
immediately with the error wrapped as `send to stream failed`, a context
distinct from the producer-side `can't get stream data` wrap. -/
theorem consumer_write_flush_and_failure
    (fl : Bool) (se : Nat → Option String) (widx : Nat) (d : Option (List Nat))
    (rest : List StreamEvent) (s : Streamer)
    (hadm : ¬ int32wrap (s.activeCount + 1) > s.MaxActive) :
    (∀ we, se widx = some we →
        activateLoop fl se widx (StreamEvent.msg ⟨d, none⟩ :: rest)
          = { result := some (some (wrapSendToStream we)), writes := [], flushes := 0 })
      ∧ (se widx = none →
          activateLoop fl se widx (StreamEvent.msg ⟨d, none⟩ :: rest)
            = { result := (activateLoop fl se (widx + 1) rest).result,
                writes := d.getD [] :: (activateLoop fl se (widx + 1) rest).writes,
                flushes := (if fl then 1 else 0)
                  + (activateLoop fl se (widx + 1) rest).flushes })
      ∧ (∀ we, se 0 = some we →
          (s.Activate fl se (StreamEvent.msg ⟨d, none⟩ :: rest)).result
            = some (some (wrapSendToStream we))) := by
  refine ⟨fun we hw => activateLoop_msg_write_err fl se widx d we rest hw,
    fun hw => activateLoop_msg_write_ok fl se widx d rest hw,
    fun we hw => ?_⟩
  simp only [Streamer.Activate]
  rw [if_neg hadm]
  simp only [activateLoop_msg_write_err fl se 0 d we rest hw]

theorem consumer_write_flush_and_failure_witness :
    (activateLoop true (fun _ => some "broken pipe") 0
        [StreamEvent.msg { data := some [1], err := none }]
      = { result := some (some (wrapSendToStream "broken pipe")), writes := [],
          flushes := 0 })
      ∧ (activateLoop true (fun _ => none) 0
            [StreamEvent.msg { data := some [1], err := none }, StreamEvent.timeout]
          = { result := some none, writes := [[1]], flushes := 1 })
      ∧ ((Streamer.Activate ⟨300, 1, 10, 0⟩ true (fun _ => some "broken pipe")
            [StreamEvent.msg { data := some [1], err := none }]).result
          = some (some (wrapSendToStream "broken pipe"))) :=
  ⟨(consumer_write_flush_and_failure true (fun _ => some "broken pipe") 0 (some [1])
      [] ⟨300, 1, 10, 0⟩ (by decide)).1 "broken pipe" rfl,
    by
      have := (consumer_write_flush_and_failure true (fun _ => none) 0 (some [1])
        [StreamEvent.timeout] ⟨300, 1, 10, 0⟩ (by decide)).2.1 rfl
      simpa [activateLoop_timeout] using this,
    (consumer_write_flush_and_failure true (fun _ => some "broken pipe") 0 (some [1])
      [] ⟨300, 1, 10, 0⟩ (by decide)).2.2 "broken pipe" rfl⟩

/-- C8: when every check result reports `upd = false` with no error, the
producer sends nothing, so the run writes zero records to the sink, never
flushes, and terminates only through a terminal event (cancellation,
timeout, or the producer closing its channel after cancellation) with a nil
error — never through a write. -/
theorem no_update_means_no_writes (s : Streamer) (fl : Bool) (se : Nat → Option String)
    (rs : List FnResult) (term : StreamEvent)
    (hadm : ¬ int32wrap (s.activeCount + 1) > s.MaxActive)
    (h : ∀ r ∈ rs, r.upd = false ∧ r.err = none)
    (hterm : term = StreamEvent.ctxDone ∨ term = StreamEvent.timeout ∨
      term = StreamEvent.closed) :
    eventsCh rs = []
      ∧ (s.Activate fl se ((eventsCh rs).map StreamEvent.msg ++ [term])).writes = []
      ∧ (s.Activate fl se ((eventsCh rs).map StreamEvent.msg ++ [term])).flushes = 0
      ∧ (s.Activate fl se ((eventsCh rs).map StreamEvent.msg ++ [term])).result
          = some none := by
  have hch := eventsCh_no_upd rs h
  have hloop : activateLoop fl se 0 ((eventsCh rs).map StreamEvent.msg ++ [term])
      = { result := some none, writes := [], flushes := 0 } := by
    rw [hch]
    simp only [List.map_nil, List.nil_append]
    rcases hterm with ht | ht | ht <;> subst ht <;> rfl
  refine ⟨hch, ?_, ?_, ?_⟩ <;>
    · simp only [Streamer.Activate]
      rw [if_neg hadm]
      simp only [hloop]

theorem no_update_means_no_writes_witness :
    eventsCh [⟨[1], false, none⟩, ⟨[2], false, none⟩] = []
      ∧ (Streamer.Activate ⟨300, 1, 10, 0⟩ true (fun _ => none)
          ((eventsCh [⟨[1], false, none⟩, ⟨[2], false, none⟩]).map StreamEvent.msg
            ++ [StreamEvent.timeout])).writes = []
      ∧ (Streamer.Activate ⟨300, 1, 10, 0⟩ true (fun _ => none)
          ((eventsCh [⟨[1], false, none⟩, ⟨[2], false, none⟩]).map StreamEvent.msg
            ++ [StreamEvent.timeout])).flushes = 0
      ∧ (Streamer.Activate ⟨300, 1, 10, 0⟩ true (fun _ => none)
          ((eventsCh [⟨[1], false, none⟩, ⟨[2], false, none⟩]).map StreamEvent.msg
            ++ [StreamEvent.timeout])).result = some none :=
  no_update_means_no_writes ⟨300, 1, 10, 0⟩ true (fun _ => none)
    [⟨[1], false, none⟩, ⟨[2], false, none⟩] StreamEvent.timeout
    (by decide) (by decide) (Or.inr (Or.inl rfl))

/-- C10: every message the producer sends with a non-nil error carries a
nil payload (`data := none`), and a consumer that receives an error message
returns that error at once, writing nothing to the sink and flushing
nothing. -/
theorem error_record_nil_data_no_write (rs : List FnResult) (fl : Bool)
    (se : Nat → Option String) (widx : Nat) (d : Option (List Nat)) (e : String)
    (rest : List StreamEvent) :
    (∀ m ∈ eventsCh rs, m.err ≠ none → m.data = none)
      ∧ activateLoop fl se widx (StreamEvent.msg ⟨d, some e⟩ :: rest)
          = { result := some (some e), writes := [], flushes := 0 } := by
  refine ⟨?_, activateLoop_msg_err fl se widx d e rest⟩
  induction rs with
  | nil => simp [eventsCh_nil]
  | cons r rest' ih =>
    obtain ⟨d', u', e'⟩ := r
    cases e' with
    | some e' =>
      rw [eventsCh_cons_err]
      intro m hm hne
      rw [List.mem_singleton] at hm
      subst hm
      rfl
    | none =>
      rw [eventsCh_cons_ok]
      cases u' with
      | false => simpa using ih
      | true =>
        rw [if_pos rfl]
        intro m hm hne
        rcases List.mem_cons.mp hm with h1 | h1
        · subst h1
          exact absurd rfl hne
        · exact ih m h1 hne

theorem error_record_nil_data_no_write_witness :
    ((⟨none, some (wrapGetStreamData "boom")⟩ : steamEventResp).data = none)
      ∧ activateLoop true (fun _ => none) 0
          [StreamEvent.msg ⟨some [3], some "z"⟩, StreamEvent.timeout]
        = { result := some (some "z"), writes := [], flushes := 0 } :=
  ⟨(error_record_nil_data_no_write [⟨[7], true, some "boom"⟩] true (fun _ => none) 0
      (some [3]) "z" [StreamEvent.timeout]).1
      ⟨none, some (wrapGetStreamData "boom")⟩ (by decide) (by decide),
    (error_record_nil_data_no_write [⟨[7], true, some "boom"⟩] true (fun _ => none) 0
      (some [3]) "z" [StreamEvent.timeout]).2⟩
